import Mathlib

/-!
Verification of the indicator engine and signal-fusion algorithm of the
Analyst repository (`api/utils/technical.py`, assembled by
`api/analyze-pair.py`).

IEEE double values are modelled exactly: a float is either a finite rational,
`+inf`, `-inf`, or `NaN`, and every arithmetic operation follows the IEEE
special-value rules (division of a positive number by zero gives `+inf`,
`0/0` gives `NaN`, comparisons with `NaN` are false, and so on).  Pandas
series become `List EF` with rolling windows, `ewm`, `diff` and `shift`
translated element for element.  Rounding of a binary double to a decimal is
idealised as exact half-even rounding of the rational value.
-/

namespace Analyst

/-- Model of an IEEE double: an exact rational, an infinity, or NaN. -/
inductive EF where
  | fin (q : ℚ)
  | pinf
  | ninf
  | nan
deriving DecidableEq, Repr

namespace EF

/-- The value is finite (neither an infinity nor NaN). -/
def isFin : EF → Prop
  | fin _ => True
  | _ => False

instance : DecidablePred isFin := fun v => by
  cases v <;> simp [isFin] <;> infer_instance

/-- IEEE addition. -/
def add : EF → EF → EF
  | nan, _ => nan
  | _, nan => nan
  | pinf, ninf => nan
  | ninf, pinf => nan
  | pinf, _ => pinf
  | _, pinf => pinf
  | ninf, _ => ninf
  | _, ninf => ninf
  | fin a, fin b => fin (a + b)

/-- IEEE negation. -/
def neg : EF → EF
  | fin a => fin (-a)
  | pinf => ninf
  | ninf => pinf
  | nan => nan

/-- IEEE subtraction. -/
def sub (a b : EF) : EF := add a (neg b)

/-- IEEE multiplication. -/
def mul : EF → EF → EF
  | nan, _ => nan
  | _, nan => nan
  | pinf, pinf => pinf
  | pinf, ninf => ninf
  | ninf, pinf => ninf
  | ninf, ninf => pinf
  | pinf, fin b => if b = 0 then nan else if 0 < b then pinf else ninf
  | fin a, pinf => if a = 0 then nan else if 0 < a then pinf else ninf
  | ninf, fin b => if b = 0 then nan else if 0 < b then ninf else pinf
  | fin a, ninf => if a = 0 then nan else if 0 < a then ninf else pinf
  | fin a, fin b => fin (a * b)

/-- IEEE division (signed zeros are collapsed to `0`). -/
def div : EF → EF → EF
  | nan, _ => nan
  | _, nan => nan
  | pinf, pinf => nan
  | pinf, ninf => nan
  | ninf, pinf => nan
  | ninf, ninf => nan
  | pinf, fin b => if 0 ≤ b then pinf else ninf
  | ninf, fin b => if 0 ≤ b then ninf else pinf
  | fin _, pinf => fin 0
  | fin _, ninf => fin 0
  | fin a, fin b =>
      if b = 0 then (if a = 0 then nan else if 0 < a then pinf else ninf)
      else fin (a / b)

/-- IEEE absolute value. -/
def abs : EF → EF
  | fin a => fin |a|
  | nan => nan
  | _ => pinf

/-- IEEE strict less-than: any comparison with NaN is false. -/
def blt : EF → EF → Bool
  | fin a, fin b => decide (a < b)
  | fin _, pinf => true
  | ninf, fin _ => true
  | ninf, pinf => true
  | _, _ => false

/-- IEEE less-or-equal: any comparison with NaN is false. -/
def ble : EF → EF → Bool
  | fin a, fin b => decide (a ≤ b)
  | fin _, pinf => true
  | ninf, nan => false
  | ninf, _ => true
  | pinf, pinf => true
  | _, _ => false

/-- IEEE strict greater-than, written as in the source (`a > b`). -/
def bgt (a b : EF) : Bool := blt b a

/-- IEEE greater-or-equal, written as in the source (`a >= b`). -/
def bge (a b : EF) : Bool := ble b a

/-- Pairwise maximum skipping NaN, as `DataFrame.max(axis=1)` (skipna). -/
def maxS : EF → EF → EF
  | nan, b => b
  | a, nan => a
  | a, b => if blt a b then b else a

end EF

/-- Half-even ("banker's") rounding of a rational to an integer, the rule
Python's `round` uses. -/
def roundHE (x : ℚ) : ℤ :=
  let f := ⌊x⌋
  let r := x - f
  if r < 1/2 then f else if 1/2 < r then f + 1 else if f % 2 = 0 then f else f + 1

/-- Python `round(value, n)`: round to `n` decimal places (half-even);
infinities and NaN are passed through. -/
def roundTo (n : ℕ) : EF → EF
  | EF.fin q => EF.fin ((roundHE (q * 10 ^ n) : ℚ) / 10 ^ n)
  | v => v

/-- Python `int(...)` truncation toward zero of a finite value. -/
def pyInt (q : ℚ) : ℤ := if q < 0 then -⌊-q⌋ else ⌊q⌋

/-- Python `int(...)` applied to a float (always finite at its call sites). -/
def intTrunc : EF → EF
  | EF.fin q => EF.fin (pyInt q)
  | v => v

/-- `safe_float(value, default)` from `technical.py`: a finite value passes
through unchanged, NaN and infinities are replaced by the default. -/
def safe_float (value default : EF) : EF :=
  match value with
  | EF.fin q => EF.fin q
  | _ => default

/-- Last element of a pandas series (`iloc[-1]`); NaN placeholder on the
empty series (never reached at the call sites, which guard nonemptiness). -/
def slast (l : List EF) : EF := l.getLast?.getD EF.nan

/-- `Series.mean()`: sum over count; NaN on the empty series, NaN/inf
propagate through the sum exactly as in pandas (skipna never sees NaN here
because rolling windows with min_periods = window already yield NaN). -/
def meanEF (l : List EF) : EF :=
  EF.div (l.foldl EF.add (EF.fin 0)) (EF.fin (l.length : ℚ))

/-- `Series.diff()`: first element NaN, then successive differences. -/
def sdiff (l : List EF) : List EF :=
  match l with
  | [] => []
  | x :: xs => EF.nan :: List.zipWith EF.sub xs (x :: xs)

/-- `Series.shift(1)`: NaN then all elements but the last. -/
def shift1 (l : List EF) : List EF :=
  match l with
  | [] => []
  | _ => EF.nan :: l.dropLast

/-- `Series.rolling(window=w).mean()`: NaN until a full window is available,
then the mean of the trailing `w` elements. -/
def rollingMean (w : ℕ) (l : List EF) : List EF :=
  (List.range l.length).map fun i =>
    if i + 1 < w then EF.nan else meanEF ((l.take (i + 1)).drop (i + 1 - w))

/-- Sample standard deviation (ddof = 1) of one window, as `Series.std`. -/
def stdW (xs : List EF) : EF :=
  let μ := meanEF xs
  let m2 := xs.foldl (fun acc x => EF.add acc (EF.mul (EF.sub x μ) (EF.sub x μ))) (EF.fin 0)
  match EF.div m2 (EF.fin ((xs.length - 1 : ℕ) : ℚ)) with
  | EF.fin q => if q < 0 then EF.nan else EF.fin ((Nat.sqrt (q.num.toNat * q.den) : ℚ) / (q.den : ℚ))
  | EF.pinf => EF.pinf
  | _ => EF.nan

/-- `Series.rolling(window=w).std()` (sample std, ddof = 1).  The square root
of the (exact, nonnegative) rational variance is abstracted by an integer
square-root approximation; no claim depends on its numeric value, only on it
being a finite nonnegative rational. -/
def rollingStd (w : ℕ) (l : List EF) : List EF :=
  (List.range l.length).map fun i =>
    if i + 1 < w then EF.nan else stdW ((l.take (i + 1)).drop (i + 1 - w))

/-- `Series.ewm(span, adjust=False).mean()` recurrence after the seed. -/
def ewmAux (α : ℚ) : EF → List EF → List EF
  | _, [] => []
  | prev, x :: xs =>
      let e := EF.add (EF.mul (EF.fin α) x) (EF.mul (EF.fin (1 - α)) prev)
      e :: ewmAux α e xs

/-- `Series.ewm(span=s, adjust=False).mean()`: `ema[0] = x[0]`,
`ema[t] = α·x[t] + (1-α)·ema[t-1]` with `α = 2/(s+1)`. -/
def ewm (span : ℕ) (l : List EF) : List EF :=
  match l with
  | [] => []
  | x :: xs => x :: ewmAux (2 / (span + 1 : ℚ)) x xs

/-- Elementwise max of three aligned series, as
`pd.concat([a,b,c], axis=1).max(axis=1)` (skipna). -/
def zipMax3 (a b c : List EF) : List EF :=
  List.zipWith EF.maxS (List.zipWith EF.maxS a b) c

/-- One OHLCV observation (`price_history` entry): timestamp, open, high,
low, close, volume.  All fields are finite reals, modelled as rationals. -/
structure PricePoint where
  timestamp : ℚ
  «open» : ℚ
  high : ℚ
  low : ℚ
  close : ℚ
  volume : ℚ
deriving DecidableEq, Repr

/-- The state built by `TechnicalAnalyzer.__init__`: the price history as a
DataFrame already sorted ascending by timestamp. -/
structure TechnicalAnalyzer where
  df : List PricePoint
deriving DecidableEq, Repr

/-- `TechnicalAnalyzer.__init__`: rejects histories of fewer than 14 points
with a `ValueError`, otherwise sorts the rows ascending by timestamp.
(`sort_values` produces some timestamp-sorted permutation; a stable
insertion sort stands in for it, ties being unspecified in pandas too.) -/
def TechnicalAnalyzer.init (price_history : List PricePoint) :
    Except String TechnicalAnalyzer :=
  if price_history = [] ∨ price_history.length < 14 then
    .error "Insufficient price data for analysis (need at least 14 periods)"
  else
    .ok ⟨price_history.insertionSort (fun a b => a.timestamp ≤ b.timestamp)⟩

namespace TechnicalAnalyzer

/-- The `close` column of the DataFrame. -/
def closes (a : TechnicalAnalyzer) : List EF := a.df.map fun p => EF.fin p.close

/-- The `high` column of the DataFrame. -/
def highs (a : TechnicalAnalyzer) : List EF := a.df.map fun p => EF.fin p.high

/-- The `low` column of the DataFrame. -/
def lows (a : TechnicalAnalyzer) : List EF := a.df.map fun p => EF.fin p.low

/-- The `volume` column of the DataFrame. -/
def volumes (a : TechnicalAnalyzer) : List EF := a.df.map fun p => EF.fin p.volume

/-- `calculate_rsi`: gains and losses from the close deltas, rolling means,
`rs = gain/loss`, `rsi = 100 - 100/(1+rs)`, last element through
`safe_float(..., 50.0)`. -/
def calculate_rsi (a : TechnicalAnalyzer) (period : ℕ := 14) : EF :=
  let delta := sdiff a.closes
  let gain := rollingMean period (delta.map fun d => if EF.bgt d (EF.fin 0) then d else EF.fin 0)
  let loss := rollingMean period (delta.map fun d => EF.neg (if EF.blt d (EF.fin 0) then d else EF.fin 0))
  let rs := List.zipWith EF.div gain loss
  let rsi := rs.map fun r => EF.sub (EF.fin 100) (EF.div (EF.fin 100) (EF.add (EF.fin 1) r))
  safe_float (slast rsi) (EF.fin 50)

/-- Result of `calculate_macd`. -/
structure MacdResult where
  macd : EF
  signal : EF
  histogram : EF
  trend : String
deriving DecidableEq, Repr

/-- `calculate_macd`: EMA(12) − EMA(26) of closes, EMA(9) signal line,
histogram, trend label `bullish` iff the last histogram value is > 0. -/
def calculate_macd (a : TechnicalAnalyzer) (fast : ℕ := 12) (slow : ℕ := 26)
    («signal» : ℕ := 9) : MacdResult :=
  let exp1 := ewm fast a.closes
  let exp2 := ewm slow a.closes
  let macd_line := List.zipWith EF.sub exp1 exp2
  let signal_line := ewm «signal» macd_line
  let histogram := List.zipWith EF.sub macd_line signal_line
  let macd_val := safe_float (slast macd_line) (EF.fin 0)
  let signal_val := safe_float (slast signal_line) (EF.fin 0)
  let hist_val := safe_float (slast histogram) (EF.fin 0)
  { macd := roundTo 6 macd_val
    signal := roundTo 6 signal_val
    histogram := roundTo 6 hist_val
    trend := if EF.bgt hist_val (EF.fin 0) then "bullish" else "bearish" }

/-- Result of `calculate_bollinger_bands`. -/
structure BollingerResult where
  upper : EF
  middle : EF
  lower : EF
  position : String
deriving DecidableEq, Repr

/-- `_bb_position`: price relative to the bands. -/
def bb_position (price upper lower : EF) : String :=
  if EF.bge price upper then "overbought"
  else if EF.ble price lower then "oversold"
  else "neutral"

/-- `calculate_bollinger_bands`: SMA(20) ± 2 sample standard deviations,
with `current price × 1.02 / × 0.98` fallbacks for undefined windows. -/
def calculate_bollinger_bands (a : TechnicalAnalyzer) (period : ℕ := 20)
    (std_dev : ℚ := 2) : BollingerResult :=
  let sma := rollingMean period a.closes
  let std := rollingStd period a.closes
  let upper := List.zipWith EF.add sma (std.map fun s => EF.mul s (EF.fin std_dev))
  let lower := List.zipWith EF.sub sma (std.map fun s => EF.mul s (EF.fin std_dev))
  let current_price := safe_float (slast a.closes) (EF.fin 0)
  let upper_val := safe_float (slast upper) (EF.mul current_price (EF.fin (102/100)))
  let middle_val := safe_float (slast sma) current_price
  let lower_val := safe_float (slast lower) (EF.mul current_price (EF.fin (98/100)))
  { upper := roundTo 6 upper_val
    middle := roundTo 6 middle_val
    lower := roundTo 6 lower_val
    position := bb_position current_price upper_val lower_val }

/-- `calculate_atr`: true range from high/low/previous close (the pandas
row max skips the NaN of the shifted close on the first row), rolling mean,
last element through `safe_float(..., 0.0001)`. -/
def calculate_atr (a : TechnicalAnalyzer) (period : ℕ := 14) : EF :=
  let high := a.highs
  let low := a.lows
  let close := shift1 a.closes
  let tr1 := List.zipWith EF.sub high low
  let tr2 := List.zipWith (fun h c => EF.abs (EF.sub h c)) high close
  let tr3 := List.zipWith (fun l c => EF.abs (EF.sub l c)) low close
  let tr := zipMax3 tr1 tr2 tr3
  let atr := rollingMean period tr
  safe_float (slast atr) (EF.fin (1/10000))

/-- Result of `find_support_resistance`. -/
structure SupportResistance where
  support : EF
  resistance : EF
deriving DecidableEq, Repr

/-- Local minima of a column by strict 3-point comparison
(`low[i] < low[i-1] and low[i] < low[i+1]`, `i` in `range(1, len-1)`). -/
def localMinima (l : List ℚ) : List ℚ :=
  (List.range l.length).filterMap fun i =>
    if 1 ≤ i ∧ i + 1 < l.length ∧ l.getD i 0 < l.getD (i - 1) 0 ∧ l.getD i 0 < l.getD (i + 1) 0
    then some (l.getD i 0) else none

/-- Local maxima of a column by strict 3-point comparison. -/
def localMaxima (l : List ℚ) : List ℚ :=
  (List.range l.length).filterMap fun i =>
    if 1 ≤ i ∧ i + 1 < l.length ∧ l.getD (i - 1) 0 < l.getD i 0 ∧ l.getD (i + 1) 0 < l.getD i 0
    then some (l.getD i 0) else none

/-- Python `max(list, default=d)` over floats. -/
def pyMax (l : List EF) (d : EF) : EF :=
  match l with
  | [] => d
  | x :: xs => xs.foldl (fun acc y => if EF.blt acc y then y else acc) x

/-- Python `min(list, default=d)` over floats. -/
def pyMin (l : List EF) (d : EF) : EF :=
  match l with
  | [] => d
  | x :: xs => xs.foldl (fun acc y => if EF.blt y acc then y else acc) x

/-- `find_support_resistance`: nearest local-minimum low below the current
close (fallback close × 0.97) and nearest local-maximum high above it
(fallback close × 1.03), over the trailing `lookback` rows. -/
def find_support_resistance (a : TechnicalAnalyzer) (lookback : ℕ := 50) :
    SupportResistance :=
  let lookback := min lookback a.df.length
  let recent_data := a.df.drop (a.df.length - lookback)
  let support_levels := localMinima (recent_data.map fun p => p.low)
  let resistance_levels := localMaxima (recent_data.map fun p => p.high)
  let current_price := safe_float (slast a.closes) (EF.fin 0)
  let support := pyMax ((support_levels.map EF.fin).filter fun s => EF.blt s current_price)
      (EF.mul current_price (EF.fin (97/100)))
  let resistance := pyMin ((resistance_levels.map EF.fin).filter fun r => EF.blt current_price r)
      (EF.mul current_price (EF.fin (103/100)))
  { support := roundTo 6 (safe_float support (EF.mul current_price (EF.fin (97/100))))
    resistance := roundTo 6 (safe_float resistance (EF.mul current_price (EF.fin (103/100)))) }

/-- `calculate_ema`: EMA of closes with the given span, last element, with
the last close (itself safe) as fallback. -/
def calculate_ema (a : TechnicalAnalyzer) (period : ℕ := 20) : EF :=
  let ema := ewm period a.closes
  let result := slast ema
  let fallback := safe_float (slast a.closes) (EF.fin 0)
  safe_float result fallback

/-- `get_trend`: `insufficient_data` under 50 points, else the first-match
cascade over current price, EMA(20) and EMA(50). -/
def get_trend (a : TechnicalAnalyzer) : String :=
  if a.df.length < 50 then "insufficient_data"
  else
    let ema_20 := a.calculate_ema 20
    let ema_50 := a.calculate_ema 50
    let current_price := safe_float (slast a.closes) (EF.fin 0)
    if EF.bgt current_price ema_20 && EF.bgt ema_20 ema_50 then "strong_uptrend"
    else if EF.bgt current_price ema_20 || EF.bgt ema_20 ema_50 then "uptrend"
    else if EF.blt current_price ema_20 && EF.blt ema_20 ema_50 then "strong_downtrend"
    else if EF.blt current_price ema_20 || EF.blt ema_20 ema_50 then "downtrend"
    else "sideways"

/-- Result of `calculate_volume_analysis`. -/
structure VolumeResult where
  current : EF
  average : EF
  ratio : EF
  status : String
deriving DecidableEq, Repr

/-- The three intermediate volume scalars (average, current, ratio) of
`calculate_volume_analysis`, before formatting. -/
def volume_stats (a : TechnicalAnalyzer) : EF × EF × EF :=
  let avg_volume := meanEF (a.volumes.drop (a.volumes.length - 20))
  let current_volume := slast a.volumes
  let avg_volume := safe_float avg_volume (EF.fin 1)
  let current_volume := safe_float current_volume (EF.fin 1)
  let volume_ratio := if EF.bgt avg_volume (EF.fin 0) then EF.div current_volume avg_volume
    else EF.fin 1
  let volume_ratio := safe_float volume_ratio (EF.fin 1)
  (avg_volume, current_volume, volume_ratio)

/-- `calculate_volume_analysis`: current volume against the trailing-20-bar
average, ratio guarded against a nonpositive average, status from the
unrounded ratio. -/
def calculate_volume_analysis (a : TechnicalAnalyzer) : VolumeResult :=
  let avg_volume := a.volume_stats.1
  let current_volume := a.volume_stats.2.1
  let volume_ratio := a.volume_stats.2.2
  { current := intTrunc current_volume
    average := intTrunc avg_volume
    ratio := roundTo 2 volume_ratio
    status := if EF.bgt volume_ratio (EF.fin (3/2)) then "high"
      else if EF.bgt volume_ratio (EF.fin (7/10)) then "normal" else "low" }

end TechnicalAnalyzer

/-- The `technical_data` bag assembled in `analyze-pair.py` and consumed by
`SignalGenerator` (the spec's IndicatorSet). -/
structure IndicatorSet where
  rsi : EF
  macd : TechnicalAnalyzer.MacdResult
  bollinger_bands : TechnicalAnalyzer.BollingerResult
  atr : EF
  support_resistance : TechnicalAnalyzer.SupportResistance
  trend : String
  volume : TechnicalAnalyzer.VolumeResult
deriving DecidableEq, Repr

/-- The spec's `compute_indicators`: `TechnicalAnalyzer(history)` followed by
the seven indicator computations, as assembled in `analyze-pair.py`
(lines 147-165); fails when the history has fewer than 14 points. -/
def compute_indicators (history : List PricePoint) : Except String IndicatorSet :=
  (TechnicalAnalyzer.init history).map fun analyzer =>
    { rsi := analyzer.calculate_rsi
      macd := analyzer.calculate_macd
      bollinger_bands := analyzer.calculate_bollinger_bands
      atr := analyzer.calculate_atr
      support_resistance := analyzer.find_support_resistance
      trend := analyzer.get_trend
      volume := analyzer.calculate_volume_analysis }

/-- `SignalGenerator.__init__`: keeps the indicator bag and the current
price passed through `safe_float(..., 0.0)`. -/
structure SignalGenerator where
  tech : IndicatorSet
  price : EF
deriving DecidableEq, Repr

/-- `SignalGenerator(technical_data, current_price)`. -/
def SignalGenerator.init (technical_data : IndicatorSet) (current_price : EF) :
    SignalGenerator :=
  { tech := technical_data, price := safe_float current_price (EF.fin 0) }

namespace SignalGenerator

/-- Result of `calculate_position_size`. -/
structure PositionSize where
  sl_distance : EF
  tp_distance : EF
  risk_amount : ℚ
deriving DecidableEq, Repr

/-- `calculate_position_size`: stop distance = ATR × 1.5, target distance =
stop distance × 2.5. -/
def calculate_position_size (g : SignalGenerator) (account_risk : ℚ := 5) :
    PositionSize :=
  let atr := safe_float g.tech.atr (EF.fin (1/10000))
  let sl_distance := EF.mul atr (EF.fin (3/2))
  let tp_distance := EF.mul sl_distance (EF.fin (5/2))
  { sl_distance := roundTo 6 (safe_float sl_distance (EF.fin (1/10000)))
    tp_distance := roundTo 6 (safe_float tp_distance (EF.fin (1/10000)))
    risk_amount := account_risk }

/-- The `signals` and `confidence_factors` lists built by the first half of
`generate_signal` (lines 257-308), in evaluation order: RSI, MACD,
Bollinger, support/resistance, trend. -/
def gather_votes (g : SignalGenerator) : List String × List ℚ :=
  let rsi := safe_float g.tech.rsi (EF.fin 50)
  let (s1, c1) : List String × List ℚ :=
    if EF.blt rsi (EF.fin 30) then (["LONG"], [25])
    else if EF.bgt rsi (EF.fin 70) then (["SHORT"], [25])
    else if EF.blt (EF.fin 40) rsi && EF.blt rsi (EF.fin 60) then ([], [10])
    else ([], [])
  let (s2, c2) : List String × List ℚ :=
    if g.tech.macd.trend = "bullish" && EF.bgt (safe_float g.tech.macd.histogram (EF.fin 0)) (EF.fin 0)
    then (["LONG"], [20])
    else if g.tech.macd.trend = "bearish" && EF.blt (safe_float g.tech.macd.histogram (EF.fin 0)) (EF.fin 0)
    then (["SHORT"], [20])
    else ([], [])
  let (s3, c3) : List String × List ℚ :=
    if g.tech.bollinger_bands.position = "oversold" then (["LONG"], [15])
    else if g.tech.bollinger_bands.position = "overbought" then (["SHORT"], [15])
    else ([], [])
  let support := safe_float g.tech.support_resistance.support (EF.mul g.price (EF.fin (97/100)))
  let resistance := safe_float g.tech.support_resistance.resistance (EF.mul g.price (EF.fin (103/100)))
  let (s4, c4) : List String × List ℚ :=
    if EF.ble g.price (EF.mul support (EF.fin (101/100))) then (["LONG"], [20])
    else if EF.bge g.price (EF.mul resistance (EF.fin (99/100))) then (["SHORT"], [20])
    else ([], [])
  let (s5, c5) : List String × List ℚ :=
    if g.tech.trend = "strong_uptrend" ∨ g.tech.trend = "uptrend" then (["LONG"], [20])
    else if g.tech.trend = "strong_downtrend" ∨ g.tech.trend = "downtrend" then (["SHORT"], [20])
    else ([], [])
  (s1 ++ s2 ++ s3 ++ s4 ++ s5, c1 ++ c2 ++ c3 ++ c4 ++ c5)

/-- The trading signal returned by `generate_signal`. -/
structure Signal where
  direction : String
  confidence : EF
  entry : EF
  tp : EF
  sl : EF
  risk_reward : EF
  atr : EF
deriving DecidableEq, Repr

/-- `generate_signal` (lines 252-352): majority vote by raw count, the
`confidence_factors[:count]` prefix sum capped at 95 (tie: NEUTRAL, 40),
then entry/stop/target from the position sizing and the risk-reward ratio
guarded against a nonpositive stop distance. -/
def generate_signal (g : SignalGenerator) : Signal :=
  let signals := g.gather_votes.1
  let confidence_factors := g.gather_votes.2
  let long_count := signals.count "LONG"
  let short_count := signals.count "SHORT"
  let dc : String × ℚ :=
    if long_count > short_count then
      ("LONG", min ((confidence_factors.take long_count).sum) 95)
    else if short_count > long_count then
      ("SHORT", min ((confidence_factors.take short_count).sum) 95)
    else
      ("NEUTRAL", 40)
  let direction := dc.1
  let confidence := dc.2
  let position := g.calculate_position_size
  let est : EF × EF × EF :=
    if direction = "LONG" then
      (g.price, EF.sub g.price position.sl_distance, EF.add g.price position.tp_distance)
    else if direction = "SHORT" then
      (g.price, EF.add g.price position.sl_distance, EF.sub g.price position.tp_distance)
    else
      (g.price, EF.sub g.price position.sl_distance, EF.add g.price position.tp_distance)
  let entry := est.1
  let sl := est.2.1
  let tp := est.2.2
  let sl_dist := safe_float position.sl_distance (EF.fin (1/10000))
  let tp_dist := safe_float position.tp_distance (EF.fin (1/10000))
  let risk_reward := if EF.bgt sl_dist (EF.fin 0) then EF.div tp_dist sl_dist else EF.fin (5/2)
  { direction := direction
    confidence := roundTo 1 (safe_float (EF.fin confidence) (EF.fin 0))
    entry := roundTo 6 (safe_float entry (EF.fin 0))
    tp := roundTo 6 (safe_float tp (EF.fin 0))
    sl := roundTo 6 (safe_float sl (EF.fin 0))
    risk_reward := roundTo 2 (safe_float risk_reward (EF.fin (5/2)))
    atr := safe_float g.tech.atr (EF.fin (1/10000)) }

end SignalGenerator

/-- Every numeric field of an IndicatorSet is finite (no NaN, no infinity). -/
def IndicatorSet.allFinite (t : IndicatorSet) : Prop :=
  t.rsi.isFin ∧ t.macd.macd.isFin ∧ t.macd.signal.isFin ∧ t.macd.histogram.isFin ∧
  t.bollinger_bands.upper.isFin ∧ t.bollinger_bands.middle.isFin ∧
  t.bollinger_bands.lower.isFin ∧ t.atr.isFin ∧
  t.support_resistance.support.isFin ∧ t.support_resistance.resistance.isFin ∧
  t.volume.current.isFin ∧ t.volume.average.isFin ∧ t.volume.ratio.isFin

instance (t : IndicatorSet) : Decidable t.allFinite := by
  unfold IndicatorSet.allFinite; infer_instance

/-- A flat OHLCV row (open = high = low = close) for concrete test inputs. -/
def flatRow (t c v : ℚ) : PricePoint :=
  { timestamp := t, «open» := c, high := c, low := c, close := c, volume := v }

/-- 15 bars with strictly increasing closes 1..15. -/
def inc15df : List PricePoint := (List.range 15).map fun i => flatRow i (i + 1) 1000

/-- 14 constant bars (close 100, volume 1000). -/
def const14df : List PricePoint := (List.range 14).map fun i => flatRow i 100 1000

/-- 50 constant bars (close 100, volume 1000). -/
def const50df : List PricePoint := (List.range 50).map fun i => flatRow i 100 1000

/-- The IndicatorSet the engine computes on `const14df` (checked by
evaluation in the witness below). -/
def const14ind : IndicatorSet :=
  { rsi := .fin 50
    macd := { macd := .fin 0, signal := .fin 0, histogram := .fin 0, trend := "bearish" }
    bollinger_bands :=
      { upper := .fin 102, middle := .fin 100, lower := .fin 98, position := "neutral" }
    atr := .fin 0
    support_resistance := { support := .fin 97, resistance := .fin 103 }
    trend := "insufficient_data"
    volume :=
      { current := .fin 1000, average := .fin 1000, ratio := .fin 1, status := "normal" } }

/-- IndicatorSet exhibiting the confidence-slicing divergence: neutral RSI
(tracking weight 10), a bullish-MACD LONG vote (20) and a trend LONG vote
(20), nothing else voting at price 100. -/
def slice_bug_tech : IndicatorSet :=
  { rsi := .fin 50
    macd := { macd := .fin 1, signal := .fin 0, histogram := .fin 1, trend := "bullish" }
    bollinger_bands := { upper := .fin 110, middle := .fin 100, lower := .fin 90, position := "neutral" }
    atr := .fin 2
    support_resistance := { support := .fin 90, resistance := .fin 110 }
    trend := "uptrend"
    volume := { current := .fin 1000, average := .fin 1000, ratio := .fin 1, status := "normal" } }

/-- The spec's worked LONG example: RSI 25, bullish MACD with histogram 0.5,
oversold Bollinger position, support at the current price 100,
strong uptrend, ATR 2. -/
def long_example_tech : IndicatorSet :=
  { rsi := .fin 25
    macd := { macd := .fin 1, signal := .fin (1/2), histogram := .fin (1/2), trend := "bullish" }
    bollinger_bands := { upper := .fin 110, middle := .fin 105, lower := .fin 100, position := "oversold" }
    atr := .fin 2
    support_resistance := { support := .fin 100, resistance := .fin 103 }
    trend := "strong_uptrend"
    volume := { current := .fin 1000, average := .fin 1000, ratio := .fin 1, status := "normal" } }

/-- An IndicatorSet casting no LONG and no SHORT vote at price 100 (neutral
RSI, bullish MACD with negative histogram, neutral Bollinger position,
support/resistance far from the price, sideways trend). -/
def neutral_tech : IndicatorSet :=
  { rsi := .fin 50
    macd := { macd := .fin 1, signal := .fin 2, histogram := .fin (-1), trend := "bullish" }
    bollinger_bands := { upper := .fin 110, middle := .fin 100, lower := .fin 90, position := "neutral" }
    atr := .fin 2
    support_resistance := { support := .fin 90, resistance := .fin 110 }
    trend := "sideways"
    volume := { current := .fin 1000, average := .fin 1000, ratio := .fin 1, status := "normal" } }

/-- Rational shadow of `Series.diff` on the close column (the NaN head of
the pandas diff is handled separately). -/
def deltasQ (cs : List ℚ) : List ℚ := List.zipWith (fun x y => x - y) cs.tail cs

/-- Rational shadow of the gain column: the NaN head of the diff falls to 0
under `where(delta > 0, 0)`, later entries keep their positive part. -/
def gainsQ (cs : List ℚ) : List ℚ :=
  0 :: (deltasQ cs).map fun x => if 0 < x then x else 0

/-- Rational shadow of the loss column (negated negative part). -/
def lossesQ (cs : List ℚ) : List ℚ :=
  0 :: (deltasQ cs).map fun x => if x < 0 then -x else 0

/-- The trailing 14-window average gain of a close column. -/
def avgGain (cs : List ℚ) : ℚ := ((gainsQ cs).drop (cs.length - 14)).sum / 14

/-- The trailing 14-window average loss of a close column. -/
def avgLoss (cs : List ℚ) : ℚ := ((lossesQ cs).drop (cs.length - 14)).sum / 14

/-- The IEEE evaluation `100 - 100/(1 + g/l)` of the final RSI element. -/
def rsiEF (g l : ℚ) : EF :=
  EF.sub (EF.fin 100) (EF.div (EF.fin 100) (EF.add (EF.fin 1) (EF.div (EF.fin g) (EF.fin l))))

/-- A rational sequence is strictly increasing (each element below its
successor). -/
def strictlyIncreasing (l : List ℚ) : Prop :=
  ∀ i, i < l.length - 1 → l.getD i 0 < l.getD (i + 1) 0

instance (l : List ℚ) : Decidable (strictlyIncreasing l) := by
  unfold strictlyIncreasing
  infer_instance

/-!  ## Helper lemmas  -/

theorem EF.isFin_fin (q : ℚ) : (EF.fin q).isFin := trivial

theorem EF.isFin_iff (v : EF) : v.isFin ↔ ∃ q, v = EF.fin q := by
  cases v <;> simp [EF.isFin]

theorem safe_float_of_fin (q : ℚ) (d : EF) : safe_float (EF.fin q) d = EF.fin q := rfl

theorem safe_float_isFin (v d : EF) (hd : d.isFin) : (safe_float v d).isFin := by
  cases v
  · exact trivial
  all_goals exact hd

theorem roundTo_isFin (n : ℕ) (v : EF) (h : v.isFin) : (roundTo n v).isFin := by
  cases v <;> simp_all [roundTo, EF.isFin]

theorem intTrunc_isFin (v : EF) (h : v.isFin) : (intTrunc v).isFin := by
  cases v <;> simp_all [intTrunc, EF.isFin]

theorem EF.add_fin (a b : ℚ) : EF.add (EF.fin a) (EF.fin b) = EF.fin (a + b) := rfl

theorem EF.mul_fin (a b : ℚ) : EF.mul (EF.fin a) (EF.fin b) = EF.fin (a * b) := rfl

theorem EF.sub_fin (a b : ℚ) : EF.sub (EF.fin a) (EF.fin b) = EF.fin (a - b) := by
  simp [EF.sub, EF.neg, EF.add, sub_eq_add_neg]

theorem EF.div_fin_of_ne (a b : ℚ) (hb : b ≠ 0) :
    EF.div (EF.fin a) (EF.fin b) = EF.fin (a / b) := by
  simp [EF.div, hb]

theorem EF.div_fin_zero_of_pos (a : ℚ) (ha : 0 < a) :
    EF.div (EF.fin a) (EF.fin 0) = EF.pinf := by
  simp [EF.div, ha.ne', ha]

theorem slast_eq_getElem (l : List EF) (h : 0 < l.length) :
    slast l = l.get ⟨l.length - 1, by omega⟩ := by
  unfold slast
  rw [List.getLast?_eq_getElem?, List.getElem?_eq_getElem (by omega)]
  rfl

theorem slast_map (f : EF → EF) (l : List EF) (h : l ≠ []) :
    slast (l.map f) = f (slast l) := by
  unfold slast
  rw [List.getLast?_map]
  cases hx : l.getLast? with
  | none => exact absurd (List.getLast?_eq_none_iff.mp hx) h
  | some x => rfl

theorem slast_zipWith (f : EF → EF → EF) (l1 l2 : List EF) (h : l1.length = l2.length)
    (h0 : 0 < l1.length) :
    slast (List.zipWith f l1 l2) = f (slast l1) (slast l2) := by
  have hz : (List.zipWith f l1 l2).length = l1.length := by
    rw [List.length_zipWith, ← h, min_self]
  have h2 : l2.length = l1.length := h.symm
  rw [slast_eq_getElem _ (by omega), slast_eq_getElem _ h0,
    slast_eq_getElem _ (show 0 < l2.length by omega)]
  simp only [List.get_eq_getElem, List.getElem_zipWith, hz, h2]

theorem foldl_add_map_fin (l : List ℚ) (s : ℚ) :
    (l.map EF.fin).foldl EF.add (EF.fin s) = EF.fin (s + l.sum) := by
  induction l generalizing s with
  | nil => simp
  | cons x xs ih => simp [EF.add_fin, ih]; ring_nf

theorem meanEF_map_fin (l : List ℚ) (h : l ≠ []) :
    meanEF (l.map EF.fin) = EF.fin (l.sum / l.length) := by
  have hl : (l.length : ℚ) ≠ 0 := by
    simpa using List.length_pos.mpr h |>.ne'
  unfold meanEF
  rw [foldl_add_map_fin, zero_add, List.length_map, EF.div_fin_of_ne _ _ hl]

theorem rollingMean_length (w : ℕ) (l : List EF) :
    (rollingMean w l).length = l.length := by
  simp [rollingMean]

theorem slast_rollingMean (w : ℕ) (l : List EF) (h1 : 1 ≤ w) (h2 : w ≤ l.length) :
    slast (rollingMean w l) = meanEF (l.drop (l.length - w)) := by
  obtain ⟨m, hm⟩ : ∃ m, l.length = m + 1 := ⟨l.length - 1, by omega⟩
  unfold rollingMean slast
  rw [hm, List.range_succ, List.map_append]
  simp only [List.map_cons, List.map_nil, List.getLast?_concat, Option.getD_some]
  rw [if_neg (by omega)]
  have : l.take (m + 1) = l := by
    rw [← hm, List.take_length]
  rw [this]

/-!  ## Claims  -/

/-- C3: every price series with fewer than 14 points (including the empty
one) makes the engine fail with the distinct insufficient-data error before
any indicator computation; no IndicatorSet is produced. -/
theorem compute_indicators_insufficient_data (ph : List PricePoint) (h : ph.length < 14) :
    compute_indicators ph =
      Except.error "Insufficient price data for analysis (need at least 14 periods)" := by
  unfold compute_indicators TechnicalAnalyzer.init
  rw [if_pos (Or.inr h)]
  rfl

/-- C3 witness: the empty history is rejected. -/
theorem compute_indicators_insufficient_data_witness :
    compute_indicators [] =
      Except.error "Insufficient price data for analysis (need at least 14 periods)" :=
  compute_indicators_insufficient_data [] (by decide)

/-- C1 (code evidence): with a neutral RSI of 50 (tracking weight 10), a
bullish-MACD LONG vote (weight 20) and a trend LONG vote (weight 20), the
code returns confidence 30 = 10 + 20, the sum of the first `long_count`
entries of `confidence_factors`, not 40 = 20 + 20, the sum of the weights of
the two LONG votes as the claim states. -/
theorem generate_signal_confidence_slice_bug :
    (SignalGenerator.init slice_bug_tech (EF.fin 100)).gather_votes =
      (["LONG", "LONG"], [10, 20, 20]) ∧
    (SignalGenerator.init slice_bug_tech (EF.fin 100)).generate_signal.direction = "LONG" ∧
    (SignalGenerator.init slice_bug_tech (EF.fin 100)).generate_signal.confidence = EF.fin 30 ∧
    EF.fin (30 : ℚ) ≠ EF.fin (20 + 20) := by
  with_unfolding_all decide

/-- C4: whenever the LONG and SHORT vote counts tie (zero-zero included),
the signal is NEUTRAL with confidence exactly 40 and the stop/target are the
LONG-oriented `entry - stop_distance` / `entry + target_distance`. -/
theorem generate_signal_tie_neutral (g : SignalGenerator)
    (h : g.gather_votes.1.count "LONG" = g.gather_votes.1.count "SHORT") :
    g.generate_signal.direction = "NEUTRAL" ∧
    g.generate_signal.confidence = EF.fin 40 ∧
    g.generate_signal.sl =
      roundTo 6 (safe_float (EF.sub g.price g.calculate_position_size.sl_distance) (EF.fin 0)) ∧
    g.generate_signal.tp =
      roundTo 6 (safe_float (EF.add g.price g.calculate_position_size.tp_distance) (EF.fin 0)) := by
  simp only [SignalGenerator.generate_signal, h, lt_self_iff_false, if_false]
  norm_num
  refine ⟨by with_unfolding_all decide, rfl, rfl⟩

/-- C4 witness: an IndicatorSet casting no votes at all ties zero-zero and
yields NEUTRAL with confidence 40 and the LONG-oriented levels. -/
theorem generate_signal_tie_neutral_witness :
    (SignalGenerator.init neutral_tech (EF.fin 100)).generate_signal.direction = "NEUTRAL" ∧
    (SignalGenerator.init neutral_tech (EF.fin 100)).generate_signal.confidence = EF.fin 40 ∧
    (SignalGenerator.init neutral_tech (EF.fin 100)).generate_signal.sl =
      roundTo 6 (safe_float (EF.sub (SignalGenerator.init neutral_tech (EF.fin 100)).price
        (SignalGenerator.init neutral_tech (EF.fin 100)).calculate_position_size.sl_distance)
        (EF.fin 0)) ∧
    (SignalGenerator.init neutral_tech (EF.fin 100)).generate_signal.tp =
      roundTo 6 (safe_float (EF.add (SignalGenerator.init neutral_tech (EF.fin 100)).price
        (SignalGenerator.init neutral_tech (EF.fin 100)).calculate_position_size.tp_distance)
        (EF.fin 0)) :=
  generate_signal_tie_neutral (SignalGenerator.init neutral_tech (EF.fin 100))
    (by with_unfolding_all decide)

/-- C7: the spec's worked LONG example (RSI 25, bullish MACD histogram 0.5,
oversold Bollinger, price at support, strong uptrend, ATR 2, price 100)
produces LONG with confidence 95, stop 97 (distance 3 = ATR × 1.5), target
107.5 (distance 7.5 = 3 × 2.5) and risk-reward 2.5; and in general the
stop distance is ATR × 1.5, the target distance is that × 2.5, and
risk-reward is target/stop with fallback 2.5 when the stop distance is not
positive (in particular when it is zero). -/
theorem generate_signal_long_example_and_risk_reward :
    (SignalGenerator.init long_example_tech (EF.fin 100)).generate_signal =
      { direction := "LONG", confidence := EF.fin 95, entry := EF.fin 100,
        tp := EF.fin (215/2), sl := EF.fin 97, risk_reward := EF.fin (5/2),
        atr := EF.fin 2 } ∧
    ∀ g : SignalGenerator, ∃ atrq slq tpq : ℚ,
      safe_float g.tech.atr (EF.fin (1/10000)) = EF.fin atrq ∧
      g.calculate_position_size.sl_distance = EF.fin slq ∧
      g.calculate_position_size.tp_distance = EF.fin tpq ∧
      g.calculate_position_size.sl_distance = roundTo 6 (EF.fin (atrq * (3/2))) ∧
      g.calculate_position_size.tp_distance = roundTo 6 (EF.fin (atrq * (3/2) * (5/2))) ∧
      g.generate_signal.risk_reward = roundTo 2 (EF.fin (if 0 < slq then tpq / slq else 5/2)) := by
  constructor
  · with_unfolding_all decide
  · intro g
    obtain ⟨atrq, ha⟩ := (EF.isFin_iff _).1
      (safe_float_isFin g.tech.atr (EF.fin (1/10000)) (EF.isFin_fin _))
    have hsl : g.calculate_position_size.sl_distance =
        EF.fin ((roundHE (atrq * (3/2) * 10 ^ 6) : ℚ) / 10 ^ 6) := by
      simp only [SignalGenerator.calculate_position_size, ha, EF.mul_fin, safe_float_of_fin,
        roundTo]
    have htp : g.calculate_position_size.tp_distance =
        EF.fin ((roundHE (atrq * (3/2) * (5/2) * 10 ^ 6) : ℚ) / 10 ^ 6) := by
      simp only [SignalGenerator.calculate_position_size, ha, EF.mul_fin, safe_float_of_fin,
        roundTo]
    refine ⟨atrq, _, _, ha, hsl, htp, ?_, ?_, ?_⟩
    · rw [hsl]
      simp only [SignalGenerator.calculate_position_size, ha, EF.mul_fin, safe_float_of_fin,
        roundTo]
    · rw [htp]
      simp only [SignalGenerator.calculate_position_size, ha, EF.mul_fin, safe_float_of_fin,
        roundTo]
    · simp only [SignalGenerator.generate_signal, hsl, htp, safe_float_of_fin]
      by_cases hs : 0 < (roundHE (atrq * (3/2) * 10 ^ 6) : ℚ) / 10 ^ 6
      · simp only [EF.bgt, EF.blt, decide_eq_true_eq, hs, if_true, if_pos hs,
          EF.div_fin_of_ne _ _ hs.ne', safe_float_of_fin]
      · simp only [EF.bgt, EF.blt, decide_eq_true_eq, hs, if_false, if_neg hs, safe_float_of_fin]

theorem calculate_ema_isFin (a : TechnicalAnalyzer) (p : ℕ) : (a.calculate_ema p).isFin := by
  unfold TechnicalAnalyzer.calculate_ema
  exact safe_float_isFin _ _ (safe_float_isFin _ _ (EF.isFin_fin 0))

theorem current_price_isFin (a : TechnicalAnalyzer) :
    (safe_float (slast a.closes) (EF.fin 0)).isFin :=
  safe_float_isFin _ _ (EF.isFin_fin 0)

theorem get_trend_cascade (a : TechnicalAnalyzer) :
    ∃ p e20 e50 : ℚ,
      safe_float (slast a.closes) (EF.fin 0) = EF.fin p ∧
      a.calculate_ema 20 = EF.fin e20 ∧
      a.calculate_ema 50 = EF.fin e50 ∧
      a.get_trend = if a.df.length < 50 then "insufficient_data"
        else if e20 < p ∧ e50 < e20 then "strong_uptrend"
        else if e20 < p ∨ e50 < e20 then "uptrend"
        else if p < e20 ∧ e20 < e50 then "strong_downtrend"
        else if p < e20 ∨ e20 < e50 then "downtrend"
        else "sideways" := by
  obtain ⟨p, hp⟩ := (EF.isFin_iff _).1 (current_price_isFin a)
  obtain ⟨e20, h20⟩ := (EF.isFin_iff _).1 (calculate_ema_isFin a 20)
  obtain ⟨e50, h50⟩ := (EF.isFin_iff _).1 (calculate_ema_isFin a 50)
  refine ⟨p, e20, e50, hp, h20, h50, ?_⟩
  simp only [TechnicalAnalyzer.get_trend, hp, h20, h50, EF.bgt, EF.blt,
    Bool.and_eq_true, Bool.or_eq_true, decide_eq_true_eq]

/-- C5: trend classification returns insufficient_data below 50 points and
otherwise the first matching label of the exact cascade
price > EMA20 > EMA50 → strong_uptrend; price > EMA20 or EMA20 > EMA50 →
uptrend; price < EMA20 < EMA50 → strong_downtrend; price < EMA20 or
EMA20 < EMA50 → downtrend; else sideways. -/
theorem get_trend_classification_spec (a : TechnicalAnalyzer) :
    ∃ p e20 e50 : ℚ,
      safe_float (slast a.closes) (EF.fin 0) = EF.fin p ∧
      a.calculate_ema 20 = EF.fin e20 ∧
      a.calculate_ema 50 = EF.fin e50 ∧
      a.get_trend = if a.df.length < 50 then "insufficient_data"
        else if e20 < p ∧ e50 < e20 then "strong_uptrend"
        else if e20 < p ∨ e50 < e20 then "uptrend"
        else if p < e20 ∧ e20 < e50 then "strong_downtrend"
        else if p < e20 ∨ e20 < e50 then "downtrend"
        else "sideways" :=
  get_trend_cascade a

/-- C10: with at least 50 points, the trend is sideways exactly when the
current close, EMA(20) and EMA(50) are all equal; any strict inequality is
captured by an earlier branch. -/
theorem get_trend_sideways_iff (a : TechnicalAnalyzer) (h : 50 ≤ a.df.length) :
    a.get_trend = "sideways" ↔
      safe_float (slast a.closes) (EF.fin 0) = a.calculate_ema 20 ∧
      a.calculate_ema 20 = a.calculate_ema 50 := by
  obtain ⟨p, e20, e50, hp, h20, h50, hcas⟩ := get_trend_cascade a
  rw [hcas, if_neg (by omega), hp, h20, h50]
  constructor
  · intro hs
    split_ifs at hs with h1 h2 h3 h4
    · exact absurd hs (by decide)
    · exact absurd hs (by decide)
    · exact absurd hs (by decide)
    · exact absurd hs (by decide)
    · push_neg at h2 h4
      have hpe : p = e20 := le_antisymm h2.1 h4.1
      have hee : e20 = e50 := le_antisymm h2.2 h4.2
      rw [hpe, hee]
      exact ⟨rfl, rfl⟩
  · rintro ⟨hpe, hee⟩
    rw [EF.fin.injEq] at hpe hee
    rw [hpe, hee]
    simp [lt_irrefl]

set_option maxRecDepth 4000 in
/-- C10 witness: 50 constant bars have price = EMA20 = EMA50 and classify
as sideways. -/
theorem get_trend_sideways_iff_witness :
    (⟨const50df⟩ : TechnicalAnalyzer).get_trend = "sideways" :=
  (get_trend_sideways_iff ⟨const50df⟩ (by with_unfolding_all decide)).mpr
    (by with_unfolding_all decide)

theorem closes_eq (a : TechnicalAnalyzer) :
    a.closes = (a.df.map fun p => p.close).map EF.fin := by
  simp [TechnicalAnalyzer.closes, List.map_map, Function.comp]

theorem volumes_eq (a : TechnicalAnalyzer) :
    a.volumes = (a.df.map fun p => p.volume).map EF.fin := by
  simp [TechnicalAnalyzer.volumes, List.map_map, Function.comp]

theorem slast_map_fin (l : List ℚ) (h : l ≠ []) :
    slast (l.map EF.fin) = EF.fin (l.getLast?.getD 1) := by
  have h0 : 0 < l.length := List.length_pos.mpr h
  have hm : 0 < (l.map EF.fin).length := by simpa using h0
  rw [slast_eq_getElem _ hm]
  rw [List.getLast?_eq_getElem?, List.getElem?_eq_getElem (by omega)]
  simp [List.get_eq_getElem]

/-- C9: the volume ratio is the current volume over the trailing-20-bar
average (defaulting to 1 when the average is not positive, in particular
when it is 0), the reported ratio is that value rounded to 2 places, and the
status label is high exactly for ratio > 1.5, normal exactly for ratio in
(0.7, 1.5], and low exactly for ratio ≤ 0.7. -/
theorem calculate_volume_analysis_spec (a : TechnicalAnalyzer) (h : 14 ≤ a.df.length) :
    ∃ A C R : ℚ,
      a.volume_stats = (EF.fin A, EF.fin C, EF.fin R) ∧
      A = ((a.df.map fun p => p.volume).drop (a.df.length - 20)).sum /
        ((min 20 a.df.length : ℕ) : ℚ) ∧
      C = (a.df.map fun p => p.volume).getLast?.getD 1 ∧
      R = (if 0 < A then C / A else 1) ∧
      (a.calculate_volume_analysis).ratio = roundTo 2 (EF.fin R) ∧
      ((a.calculate_volume_analysis).status = "high" ↔ 3/2 < R) ∧
      ((a.calculate_volume_analysis).status = "normal" ↔ 7/10 < R ∧ R ≤ 3/2) ∧
      ((a.calculate_volume_analysis).status = "low" ↔ R ≤ 7/10) := by
  have hn : a.df.length ≠ 0 := by omega
  have hvlen : (a.df.map fun p => p.volume).length = a.df.length := List.length_map _ _
  have hdropne : (a.df.map fun p => p.volume).drop (a.df.length - 20) ≠ [] := by
    apply List.ne_nil_of_length_pos
    rw [List.length_drop, hvlen]
    omega
  have hlen20 : (((a.df.map fun p => p.volume).drop (a.df.length - 20)).length : ℚ) =
      ((min 20 a.df.length : ℕ) : ℚ) := by
    rw [List.length_drop, hvlen]
    congr 1
    omega
  set vols := a.df.map fun p => p.volume with hvols
  have hvolsne : vols ≠ [] := by
    apply List.ne_nil_of_length_pos
    rw [hvlen]
    omega
  have havg : meanEF (a.volumes.drop (a.volumes.length - 20)) =
      EF.fin (((vols.drop (a.df.length - 20)).sum : ℚ) / ((min 20 a.df.length : ℕ) : ℚ)) := by
    rw [volumes_eq, ← List.map_drop, List.length_map, ← hvols, hvlen,
      meanEF_map_fin _ hdropne, hlen20]
  have hcur : slast a.volumes = EF.fin (vols.getLast?.getD 1) := by
    rw [volumes_eq, ← hvols, slast_map_fin _ hvolsne]
  set Av := ((vols.drop (a.df.length - 20)).sum : ℚ) / ((min 20 a.df.length : ℕ) : ℚ) with hAv
  set Cv := (vols.getLast?.getD 1 : ℚ) with hCv
  have hvs : a.volume_stats = (EF.fin Av, EF.fin Cv, EF.fin (if 0 < Av then Cv / Av else 1)) := by
    unfold TechnicalAnalyzer.volume_stats
    rw [havg, hcur]
    simp only [safe_float_of_fin, EF.bgt, EF.blt, decide_eq_true_eq]
    by_cases hpos : 0 < Av
    · rw [if_pos hpos, if_pos hpos, EF.div_fin_of_ne _ _ hpos.ne', safe_float_of_fin]
    · rw [if_neg hpos, if_neg hpos, safe_float_of_fin]
  set R := (if 0 < Av then Cv / Av else 1 : ℚ) with hR
  have hstat : (a.calculate_volume_analysis).status =
      (if (3:ℚ)/2 < R then "high" else if (7:ℚ)/10 < R then "normal" else "low") := by
    simp only [TechnicalAnalyzer.calculate_volume_analysis, hvs, EF.bgt, EF.blt,
      decide_eq_true_eq]
  have hratio : (a.calculate_volume_analysis).ratio = roundTo 2 (EF.fin R) := by
    simp only [TechnicalAnalyzer.calculate_volume_analysis, hvs]
  refine ⟨Av, Cv, R, hvs, rfl, rfl, hR, hratio, ?_, ?_, ?_⟩ <;> rw [hstat]
  · by_cases h1 : (3:ℚ)/2 < R
    · rw [if_pos h1]
      exact iff_of_true rfl h1
    · by_cases h2 : (7:ℚ)/10 < R
      · rw [if_neg h1, if_pos h2]
        exact iff_of_false (by decide) h1
      · rw [if_neg h1, if_neg h2]
        exact iff_of_false (by decide) h1
  · by_cases h1 : (3:ℚ)/2 < R
    · rw [if_pos h1]
      exact iff_of_false (by decide) fun hc => absurd h1 (not_lt.mpr hc.2)
    · by_cases h2 : (7:ℚ)/10 < R
      · rw [if_neg h1, if_pos h2]
        exact iff_of_true rfl ⟨h2, not_lt.mp h1⟩
      · rw [if_neg h1, if_neg h2]
        exact iff_of_false (by decide) fun hc => absurd hc.1 h2
  · by_cases h1 : (3:ℚ)/2 < R
    · rw [if_pos h1]
      exact iff_of_false (by decide) fun hc => absurd h1 (not_lt.mpr (hc.trans (by norm_num)))
    · by_cases h2 : (7:ℚ)/10 < R
      · rw [if_neg h1, if_pos h2]
        exact iff_of_false (by decide) fun hc => absurd h2 (not_lt.mpr hc)
      · rw [if_neg h1, if_neg h2]
        exact iff_of_true rfl (not_lt.mp h2)

set_option maxRecDepth 4000 in
/-- C9 witness: on the constant 14-bar history the average and current
volume are both 1000, the ratio is 1, and the status is normal. -/
theorem calculate_volume_analysis_spec_witness :
    (⟨const14df⟩ : TechnicalAnalyzer).calculate_volume_analysis.status = "normal" := by
  obtain ⟨A, C, R, hvs, hA, hC, hR, hratio, hhigh, hnormal, hlow⟩ :=
    calculate_volume_analysis_spec ⟨const14df⟩ (by with_unfolding_all decide)
  have hA' : A = 1000 := by
    rw [hA]
    with_unfolding_all decide
  have hC' : C = 1000 := by
    rw [hC]
    with_unfolding_all decide
  have hR' : R = 1 := by
    rw [hR, hA', hC']
    norm_num
  exact hnormal.mpr (by rw [hR']; norm_num)

theorem deltasQ_length (cs : List ℚ) : (deltasQ cs).length = cs.length - 1 := by
  simp only [deltasQ, List.length_zipWith, List.length_tail]
  omega

theorem gainsQ_length (cs : List ℚ) (h : cs ≠ []) : (gainsQ cs).length = cs.length := by
  have h0 := List.length_pos.mpr h
  simp only [gainsQ, List.length_cons, List.length_map, deltasQ_length]
  omega

theorem lossesQ_length (cs : List ℚ) (h : cs ≠ []) : (lossesQ cs).length = cs.length := by
  have h0 := List.length_pos.mpr h
  simp only [lossesQ, List.length_cons, List.length_map, deltasQ_length]
  omega

theorem gainsQ_nonneg (cs : List ℚ) : ∀ x ∈ gainsQ cs, 0 ≤ x := by
  intro x hx
  rcases List.mem_cons.mp hx with rfl | hx
  · exact le_refl 0
  · obtain ⟨d, -, rfl⟩ := List.mem_map.mp hx
    split_ifs with hd
    · exact hd.le
    · exact le_refl 0

theorem lossesQ_nonneg (cs : List ℚ) : ∀ x ∈ lossesQ cs, 0 ≤ x := by
  intro x hx
  rcases List.mem_cons.mp hx with rfl | hx
  · exact le_refl 0
  · obtain ⟨d, -, rfl⟩ := List.mem_map.mp hx
    split_ifs with hd
    · exact neg_nonneg.mpr hd.le
    · exact le_refl 0

theorem posPart_fin (q : ℚ) :
    (if EF.bgt (EF.fin q) (EF.fin 0) then EF.fin q else EF.fin 0) =
      EF.fin (if 0 < q then q else 0) := by
  simp only [EF.bgt, EF.blt, decide_eq_true_eq]
  split_ifs <;> rfl

theorem negPart_fin (q : ℚ) :
    EF.neg (if EF.blt (EF.fin q) (EF.fin 0) then EF.fin q else EF.fin 0) =
      EF.fin (if q < 0 then -q else 0) := by
  simp only [EF.blt, decide_eq_true_eq]
  split_ifs <;> simp [EF.neg]

theorem posPart_nan :
    (if EF.bgt EF.nan (EF.fin 0) then EF.nan else EF.fin 0) = EF.fin 0 := rfl

theorem negPart_nan :
    EF.neg (if EF.blt EF.nan (EF.fin 0) then EF.nan else EF.fin 0) = EF.fin 0 := by
  simp [EF.blt, EF.neg]

theorem rsi_gain_eq (cs : List ℚ) (h : cs ≠ []) :
    (sdiff (cs.map EF.fin)).map (fun d => if EF.bgt d (EF.fin 0) then d else EF.fin 0) =
      (gainsQ cs).map EF.fin := by
  obtain ⟨c, rest, rfl⟩ := List.exists_cons_of_ne_nil h
  simp only [List.map_cons, sdiff, gainsQ, deltasQ, List.tail_cons, List.map_map]
  rw [show EF.fin c :: List.map EF.fin rest = List.map EF.fin (c :: rest) from rfl,
    List.zipWith_map, List.map_zipWith, List.map_zipWith]
  simp only [posPart_nan, Function.comp, EF.sub_fin, posPart_fin]

theorem rsi_loss_eq (cs : List ℚ) (h : cs ≠ []) :
    (sdiff (cs.map EF.fin)).map
        (fun d => EF.neg (if EF.blt d (EF.fin 0) then d else EF.fin 0)) =
      (lossesQ cs).map EF.fin := by
  obtain ⟨c, rest, rfl⟩ := List.exists_cons_of_ne_nil h
  simp only [List.map_cons, sdiff, lossesQ, deltasQ, List.tail_cons, List.map_map]
  rw [show EF.fin c :: List.map EF.fin rest = List.map EF.fin (c :: rest) from rfl,
    List.zipWith_map, List.map_zipWith, List.map_zipWith]
  simp only [negPart_nan, Function.comp, EF.sub_fin, negPart_fin]

theorem slast_rollingMean_fin14 (qs : List ℚ) (h : 14 ≤ qs.length) :
    slast (rollingMean 14 (qs.map EF.fin)) =
      EF.fin ((qs.drop (qs.length - 14)).sum / 14) := by
  have hlen : (qs.map EF.fin).length = qs.length := List.length_map _ _
  rw [slast_rollingMean 14 _ (by omega) (by omega), hlen, ← List.map_drop,
    meanEF_map_fin _ (by
      apply List.ne_nil_of_length_pos
      rw [List.length_drop]
      omega)]
  congr 1
  rw [List.length_drop]
  have h14 : qs.length - (qs.length - 14) = 14 := by omega
  rw [h14]
  norm_num

theorem calculate_rsi_avg (a : TechnicalAnalyzer) (h : 14 ≤ a.df.length) :
    a.calculate_rsi =
      safe_float (rsiEF (avgGain (a.df.map fun p => p.close))
        (avgLoss (a.df.map fun p => p.close))) (EF.fin 50) := by
  set cs := a.df.map fun p => p.close with hcs
  have hlen : cs.length = a.df.length := List.length_map _ _
  have hne : cs ≠ [] := by
    apply List.ne_nil_of_length_pos
    omega
  have hgl : (gainsQ cs).length = cs.length := gainsQ_length cs hne
  have hll : (lossesQ cs).length = cs.length := lossesQ_length cs hne
  have hgR : slast (rollingMean 14 ((gainsQ cs).map EF.fin)) = EF.fin (avgGain cs) := by
    rw [slast_rollingMean_fin14 _ (by omega), hgl]
    rfl
  have hlR : slast (rollingMean 14 ((lossesQ cs).map EF.fin)) = EF.fin (avgLoss cs) := by
    rw [slast_rollingMean_fin14 _ (by omega), hll]
    rfl
  have l1 : (rollingMean 14 ((gainsQ cs).map EF.fin)).length = cs.length := by
    rw [rollingMean_length, List.length_map, hgl]
  have l2 : (rollingMean 14 ((lossesQ cs).map EF.fin)).length = cs.length := by
    rw [rollingMean_length, List.length_map, hll]
  simp only [TechnicalAnalyzer.calculate_rsi]
  rw [closes_eq, ← hcs, rsi_gain_eq cs hne, rsi_loss_eq cs hne]
  rw [slast_map _ _ (by
    apply List.ne_nil_of_length_pos
    rw [List.length_zipWith, l1, l2]
    omega)]
  rw [slast_zipWith _ _ _ (l1.trans l2.symm) (by omega), hgR, hlR]
  rfl

theorem avgGain_nonneg (cs : List ℚ) : 0 ≤ avgGain cs := by
  unfold avgGain
  apply div_nonneg _ (by norm_num)
  exact List.sum_nonneg fun x hx => gainsQ_nonneg cs x (List.mem_of_mem_drop hx)

theorem avgLoss_nonneg (cs : List ℚ) : 0 ≤ avgLoss cs := by
  unfold avgLoss
  apply div_nonneg _ (by norm_num)
  exact List.sum_nonneg fun x hx => lossesQ_nonneg cs x (List.mem_of_mem_drop hx)

theorem deltasQ_pos (cs : List ℚ) (hmono : strictlyIncreasing cs) :
    ∀ d ∈ deltasQ cs, 0 < d := by
  intro d hd
  obtain ⟨i, hi, rfl⟩ := List.mem_iff_getElem.mp hd
  have hi' : i < (deltasQ cs).length := hi
  rw [deltasQ_length] at hi'
  unfold deltasQ
  rw [List.getElem_zipWith, List.getElem_tail]
  have hlt := hmono i (by omega)
  rw [List.getD_eq_getElem cs 0 (by omega), List.getD_eq_getElem cs 0 (by omega)] at hlt
  linarith

theorem getLast?_drop_of_lt {α : Type} (l : List α) (k : ℕ) (h : k < l.length) :
    (l.drop k).getLast? = l.getLast? := by
  induction l generalizing k with
  | nil => simp at h
  | cons x xs ih =>
    cases k with
    | zero => rfl
    | succ k =>
      rw [List.drop_succ_cons, ih k (by simpa using h)]
      cases xs with
      | nil => simp at h
      | cons y ys => rw [List.getLast?_cons_cons]

theorem gainsQ_getLast_pos (cs : List ℚ) (h2 : 2 ≤ cs.length)
    (hmono : strictlyIncreasing cs) :
    ∃ x, (gainsQ cs).getLast? = some x ∧ 0 < x := by
  have hdne : deltasQ cs ≠ [] := by
    apply List.ne_nil_of_length_pos
    rw [deltasQ_length]
    omega
  have hsome : (deltasQ cs).getLast? = some ((deltasQ cs).getLast hdne) :=
    List.getLast?_eq_getLast _ hdne
  have hdlpos : 0 < (deltasQ cs).getLast hdne :=
    deltasQ_pos cs hmono _ (List.getLast_mem hdne)
  refine ⟨(deltasQ cs).getLast hdne, ?_, hdlpos⟩
  unfold gainsQ
  have hmapne : (deltasQ cs).map (fun x => if 0 < x then x else 0) ≠ [] := by
    simpa using hdne
  obtain ⟨y, ys, hy⟩ := List.exists_cons_of_ne_nil hmapne
  rw [hy, List.getLast?_cons_cons, ← hy, List.getLast?_map, hsome]
  simp [hdlpos]

theorem avgLoss_eq_zero (cs : List ℚ) (hmono : strictlyIncreasing cs) : avgLoss cs = 0 := by
  unfold avgLoss
  rw [List.sum_eq_zero, zero_div]
  intro x hx
  have hx' := List.mem_of_mem_drop hx
  rcases List.mem_cons.mp hx' with rfl | hx''
  · rfl
  · obtain ⟨d, hd, rfl⟩ := List.mem_map.mp hx''
    have := deltasQ_pos cs hmono d hd
    rw [if_neg (by linarith)]

theorem avgGain_pos (cs : List ℚ) (h : 14 ≤ cs.length) (hmono : strictlyIncreasing cs) :
    0 < avgGain cs := by
  unfold avgGain
  apply div_pos _ (by norm_num)
  have hne : cs ≠ [] := by
    apply List.ne_nil_of_length_pos
    omega
  have hgl := gainsQ_length cs hne
  obtain ⟨x, hlast, hx⟩ := gainsQ_getLast_pos cs (by omega) hmono
  have hkd : cs.length - 14 < (gainsQ cs).length := by omega
  have hW : ((gainsQ cs).drop (cs.length - 14)).getLast? = some x := by
    rw [getLast?_drop_of_lt _ _ hkd, hlast]
  have hWne : (gainsQ cs).drop (cs.length - 14) ≠ [] := by
    intro hc
    rw [hc] at hW
    simp at hW
  have hmem : x ∈ (gainsQ cs).drop (cs.length - 14) := by
    rw [List.getLast?_eq_getLast _ hWne] at hW
    exact (Option.some.inj hW) ▸ List.getLast_mem hWne
  exact lt_of_lt_of_le hx
    (List.single_le_sum (fun y hy => gainsQ_nonneg cs y (List.mem_of_mem_drop hy)) x hmem)

/-- C2 counterexample: on 15 bars with strictly increasing closes 1..15 the
engine returns RSI exactly 100.0, not the claimed neutral 50.0: the average
loss is 0 and the average gain positive, so `rs = +inf` and
`100 - 100/(1 + inf) = 100`, a finite value that `safe_float` passes
through unchanged. -/
theorem calculate_rsi_increasing_returns_100_not_50 :
    strictlyIncreasing (inc15df.map fun p => p.close) ∧
    14 ≤ inc15df.length ∧
    ((TechnicalAnalyzer.init inc15df).toOption.map fun a => a.calculate_rsi) =
      some (EF.fin 100) ∧
    EF.fin (100:ℚ) ≠ EF.fin 50 := by
  with_unfolding_all decide

/-- C2 (amended): for every analyzer over at least 14 bars whose
(time-ordered) closes are strictly increasing, `calculate_rsi` returns
exactly 100.0 — the avg_loss = 0 branch produces `rs = +inf` and the finite
result 100.0, so the 50.0 neutral fallback does not trigger (it only fires
when the IEEE evaluation yields NaN, i.e. on a flat window with 0/0). -/
theorem calculate_rsi_strictly_increasing_eq_100 (a : TechnicalAnalyzer)
    (h : 14 ≤ a.df.length) (hmono : strictlyIncreasing (a.df.map fun p => p.close)) :
    a.calculate_rsi = EF.fin 100 := by
  rw [calculate_rsi_avg a h]
  set cs := a.df.map fun p => p.close with hcs
  have hlen : cs.length = a.df.length := List.length_map _ _
  rw [avgLoss_eq_zero cs hmono]
  have hg := avgGain_pos cs (by omega) hmono
  unfold rsiEF
  rw [EF.div_fin_zero_of_pos _ hg]
  simp [EF.add, EF.div, EF.sub, EF.neg, safe_float]

/-- C2 witness: the strictly increasing 15-bar history instantiates the
amended claim. -/
theorem calculate_rsi_strictly_increasing_eq_100_witness :
    (⟨inc15df⟩ : TechnicalAnalyzer).calculate_rsi = EF.fin 100 :=
  calculate_rsi_strictly_increasing_eq_100 ⟨inc15df⟩ (by with_unfolding_all decide)
    (by with_unfolding_all decide)

/-- C8: for every valid history (≥ 14 bars) the RSI is a finite rational in
the closed interval [0, 100]. -/
theorem calculate_rsi_in_range (a : TechnicalAnalyzer) (h : 14 ≤ a.df.length) :
    ∃ q : ℚ, a.calculate_rsi = EF.fin q ∧ 0 ≤ q ∧ q ≤ 100 := by
  rw [calculate_rsi_avg a h]
  set cs := a.df.map fun p => p.close with hcs
  have hg := avgGain_nonneg cs
  have hl := avgLoss_nonneg cs
  rcases eq_or_lt_of_le hl with hl0 | hlpos
  · rcases eq_or_lt_of_le hg with hg0 | hgpos
    · refine ⟨50, ?_, by norm_num, by norm_num⟩
      rw [← hl0, ← hg0]
      with_unfolding_all decide
    · refine ⟨100, ?_, by norm_num, le_refl _⟩
      rw [← hl0]
      unfold rsiEF
      rw [EF.div_fin_zero_of_pos _ hgpos]
      simp [EF.add, EF.div, EF.sub, EF.neg, safe_float]
  · have hx : (0:ℚ) ≤ avgGain cs / avgLoss cs := div_nonneg hg hlpos.le
    have h1l : (0:ℚ) < 1 + avgGain cs / avgLoss cs := by linarith
    refine ⟨100 - 100 / (1 + avgGain cs / avgLoss cs), ?_, ?_, ?_⟩
    · unfold rsiEF
      rw [EF.div_fin_of_ne _ _ hlpos.ne', EF.add_fin, EF.div_fin_of_ne _ _ h1l.ne',
        EF.sub_fin, safe_float_of_fin]
    · have hb : 100 / (1 + avgGain cs / avgLoss cs) ≤ 100 := by
        apply div_le_self (by norm_num)
        linarith
      linarith
    · have hb : 0 < 100 / (1 + avgGain cs / avgLoss cs) := by
        apply div_pos (by norm_num) h1l
      linarith

/-- C8 witness: the constant 14-bar history instantiates the range claim. -/
theorem calculate_rsi_in_range_witness :
    ∃ q : ℚ, (⟨const14df⟩ : TechnicalAnalyzer).calculate_rsi = EF.fin q ∧ 0 ≤ q ∧ q ≤ 100 :=
  calculate_rsi_in_range ⟨const14df⟩ (by with_unfolding_all decide)

theorem EF.mul_isFin {a b : EF} (ha : a.isFin) (hb : b.isFin) : (EF.mul a b).isFin := by
  obtain ⟨x, rfl⟩ := (EF.isFin_iff a).1 ha
  obtain ⟨y, rfl⟩ := (EF.isFin_iff b).1 hb
  exact trivial

theorem calculate_rsi_isFin (a : TechnicalAnalyzer) : (a.calculate_rsi).isFin := by
  simp only [TechnicalAnalyzer.calculate_rsi]
  exact safe_float_isFin _ _ (EF.isFin_fin _)

theorem calculate_macd_isFin (a : TechnicalAnalyzer) :
    (a.calculate_macd).macd.isFin ∧ (a.calculate_macd).signal.isFin ∧
      (a.calculate_macd).histogram.isFin := by
  simp only [TechnicalAnalyzer.calculate_macd]
  exact ⟨roundTo_isFin _ _ (safe_float_isFin _ _ (EF.isFin_fin _)),
    roundTo_isFin _ _ (safe_float_isFin _ _ (EF.isFin_fin _)),
    roundTo_isFin _ _ (safe_float_isFin _ _ (EF.isFin_fin _))⟩

theorem calculate_bollinger_bands_isFin (a : TechnicalAnalyzer) :
    (a.calculate_bollinger_bands).upper.isFin ∧ (a.calculate_bollinger_bands).middle.isFin ∧
      (a.calculate_bollinger_bands).lower.isFin := by
  simp only [TechnicalAnalyzer.calculate_bollinger_bands]
  have hcp := current_price_isFin a
  exact ⟨roundTo_isFin _ _ (safe_float_isFin _ _ (EF.mul_isFin hcp (EF.isFin_fin _))),
    roundTo_isFin _ _ (safe_float_isFin _ _ hcp),
    roundTo_isFin _ _ (safe_float_isFin _ _ (EF.mul_isFin hcp (EF.isFin_fin _)))⟩

theorem calculate_atr_isFin (a : TechnicalAnalyzer) : (a.calculate_atr).isFin := by
  simp only [TechnicalAnalyzer.calculate_atr]
  exact safe_float_isFin _ _ (EF.isFin_fin _)

theorem find_support_resistance_isFin (a : TechnicalAnalyzer) :
    (a.find_support_resistance).support.isFin ∧
      (a.find_support_resistance).resistance.isFin := by
  simp only [TechnicalAnalyzer.find_support_resistance]
  have hcp := current_price_isFin a
  exact ⟨roundTo_isFin _ _ (safe_float_isFin _ _ (EF.mul_isFin hcp (EF.isFin_fin _))),
    roundTo_isFin _ _ (safe_float_isFin _ _ (EF.mul_isFin hcp (EF.isFin_fin _)))⟩

theorem calculate_volume_analysis_isFin (a : TechnicalAnalyzer) :
    (a.calculate_volume_analysis).current.isFin ∧
      (a.calculate_volume_analysis).average.isFin ∧
      (a.calculate_volume_analysis).ratio.isFin := by
  simp only [TechnicalAnalyzer.calculate_volume_analysis, TechnicalAnalyzer.volume_stats]
  exact ⟨intTrunc_isFin _ (safe_float_isFin _ _ (EF.isFin_fin _)),
    intTrunc_isFin _ (safe_float_isFin _ _ (EF.isFin_fin _)),
    roundTo_isFin _ _ (safe_float_isFin _ _ (EF.isFin_fin _))⟩

/-- C6: whatever IndicatorSet the engine returns on a valid history, every
numeric field of it is finite — each scalar passes through `safe_float`
whose default at every call site is itself a finite value, so no NaN and no
infinity can reach the result, including on constant, monotonic or
zero-variance series. -/
theorem compute_indicators_all_finite (ph : List PricePoint) (ind : IndicatorSet)
    (h : compute_indicators ph = Except.ok ind) : ind.allFinite := by
  unfold compute_indicators at h
  cases hinit : TechnicalAnalyzer.init ph with
  | error e =>
    rw [hinit] at h
    simp [Except.map] at h
  | ok a =>
    rw [hinit] at h
    simp only [Except.map] at h
    have hrec := Except.ok.inj h
    unfold IndicatorSet.allFinite
    rw [← hrec]
    obtain ⟨m1, m2, m3⟩ := calculate_macd_isFin a
    obtain ⟨b1, b2, b3⟩ := calculate_bollinger_bands_isFin a
    obtain ⟨s1, s2⟩ := find_support_resistance_isFin a
    obtain ⟨v1, v2, v3⟩ := calculate_volume_analysis_isFin a
    exact ⟨calculate_rsi_isFin a, m1, m2, m3, b1, b2, b3, calculate_atr_isFin a,
      s1, s2, v1, v2, v3⟩

/-- C6 witness: the constant 14-bar history computes to a concrete
IndicatorSet, and the theorem applied to it yields its finiteness. -/
theorem compute_indicators_all_finite_witness :
    compute_indicators const14df = Except.ok const14ind ∧ const14ind.allFinite :=
  ⟨by with_unfolding_all rfl,
    compute_indicators_all_finite const14df const14ind (by with_unfolding_all rfl)⟩

end Analyst

